import Mathlib

/-
  Verification development for the gorouter core: the route registry
  (src/registry/registry.go) and the proxy round-tripper (whose behavior is
  fixed by the spec and by the tests in src/unnamed/part_000).

  Machine integers do not overflow in the modelled code paths; times and
  durations are modelled as Nat (nanoseconds since an arbitrary epoch).
  Components of the repository that registry.go calls but whose sources are
  not under src/ (route.Pool, route.Uri, container.Trie, the round-tripper)
  are modelled from the spec; each such definition's doc comment says so.
-/

set_option maxHeartbeats 1600000

namespace Gorouter

/-- Modelled from the spec: the modification tag, "opaque monotonic versioning
pair: guid, index" (§3), carried by endpoints. -/
structure ModificationTag where
  guid : String
  index : Nat
deriving DecidableEq, Repr

/-- Modelled from the spec (§3): tag `a` is strictly newer than tag `b` when
they belong to the same guid sequence and `a` has the larger index. -/
def ModificationTag.newer (a b : ModificationTag) : Bool :=
  a.guid == b.guid && decide (b.index < a.index)

/-- Modelled from the spec: route.Endpoint (§3) — canonical address,
application identity, modification tag and the clock-assigned `updated_at`
timestamp. Tags and the instance id are omitted; no claim mentions them. -/
structure Endpoint where
  applicationId : String
  privateInstanceIndex : String
  address : String
  modificationTag : ModificationTag
  updatedAt : Nat
deriving DecidableEq, Repr

/-- Modelled from the spec: route.Pool (§3, §4.2) — context path, retry/age
threshold and the ordered endpoint sequence (endpoint equality key is the
canonical address). -/
structure Pool where
  retryAfterFailure : Nat
  contextPath : String
  endpoints : List Endpoint
deriving DecidableEq, Repr

/-- Modelled from the spec: route.NewPool — an empty pool with the given
threshold and context path. -/
def newPool (retryAfterFailure : Nat) (contextPath : String) : Pool :=
  ⟨retryAfterFailure, contextPath, []⟩

/-- Modelled from the spec: Pool.Put (§4.2, §3): inserts, or on an equal
canonical address replaces only when the incoming tag is strictly newer
(updating `updated_at` only then); returns true iff the address is new. -/
def Pool.put (p : Pool) (now : Nat) (e : Endpoint) : Pool × Bool :=
  if p.endpoints.any (fun x => x.address == e.address) then
    ({ p with endpoints := p.endpoints.map (fun x =>
        if x.address == e.address && ModificationTag.newer e.modificationTag x.modificationTag
        then { e with updatedAt := now } else x) }, false)
  else
    ({ p with endpoints := p.endpoints ++ [{ e with updatedAt := now }] }, true)

/-- Modelled from the spec: Pool.Remove (§4.2): deletes by canonical address;
returns true on hit. -/
def Pool.remove (p : Pool) (e : Endpoint) : Pool × Bool :=
  if p.endpoints.any (fun x => x.address == e.address) then
    ({ p with endpoints := p.endpoints.filter (fun x => !(x.address == e.address)) }, true)
  else
    (p, false)

/-- Modelled from the spec: Pool.IsEmpty (§4.2). -/
def Pool.isEmpty (p : Pool) : Bool :=
  p.endpoints.isEmpty

/-- Modelled from the spec: Pool.MarkUpdated (§4.2): sets `updated_at` of all
endpoints to `t`. -/
def Pool.markUpdated (p : Pool) (t : Nat) : Pool :=
  { p with endpoints := p.endpoints.map (fun e => { e with updatedAt := t }) }

/-- Modelled from the spec: Pool.PruneEndpoints (§4.2): "deletes endpoints
whose `updated_at` is older than `now − threshold`", that is, exactly the
endpoints with `updatedAt + threshold < now`. The removed-list return value
is used by the registry only for logging and is not modelled. -/
def Pool.pruneEndpoints (p : Pool) (now threshold : Nat) : Pool :=
  { p with endpoints := p.endpoints.filter (fun e => !decide (e.updatedAt + threshold < now)) }

/-- Modelled from the spec: a normalized URI key (§3, §4.1) — lowercased host
labels plus `/`-separated path segments, query and fragment stripped. -/
structure Uri where
  hostLabels : List String
  pathSegments : List String
deriving DecidableEq, Repr

/-- Interleaves `sep` between the strings (the spec's keys join host labels
with `.` and segments with `/`). -/
def joinWith (sep : String) : List String → String
  | [] => ""
  | [x] => x
  | x :: y :: t => x ++ sep ++ joinWith sep (y :: t)

/-- The `/`-separated parts of a key: the host string followed by the path
segments. These are the segments the trie is keyed by. -/
def Uri.parts (u : Uri) : List String :=
  joinWith "." u.hostLabels :: u.pathSegments

/-- ASCII lower-casing of one character (the URI hosts and paths the spec
normalizes are ASCII). -/
def toLowerChar (c : Char) : Char :=
  if 'A' ≤ c ∧ c ≤ 'Z' then Char.ofNat (c.toNat + 32) else c

/-- Splits a character list on a separator character; like Go strings.Split,
the empty input yields one empty field. -/
def charSplit (sep : Char) : List Char → List (List Char)
  | [] => [[]]
  | c :: cs =>
    match charSplit sep cs, decide (c = sep) with
    | r, true => [] :: r
    | [], false => [[c]]
    | h :: t, false => (c :: h) :: t

/-- Modelled from the spec: route.Uri.RouteKey (§4.1) — lowercases host and
path, drops query/fragment, removes a single trailing `/` (except when the
entire path is `/`), and splits into host labels and path segments. -/
def routeKey (uri : String) : Uri :=
  let cs := (uri.toList.takeWhile (fun c => !(c == '?' || c == '#'))).map toLowerChar
  let cs := if cs.getLast? = some '/' then
              let cs₁ := cs.dropLast
              if cs₁.contains '/' then cs₁ else cs
            else cs
  match charSplit '/' cs with
  | [] => ⟨[""], []⟩
  | h :: t => ⟨(charSplit '.' h).map List.asString, t.map List.asString⟩

/-- Modelled from the spec: route.Uri.NextWildcard (§4.1) — strip one trailing
path segment; when no path remains, replace the leftmost host label with `*`
once (`a.b.c` → `*.b.c`, then `*.c`, then exhausted). `none` is the
`NoFallback` exhaustion signal. -/
def nextWildcard (k : Uri) : Option Uri :=
  match k.pathSegments with
  | _ :: _ => some { k with pathSegments := k.pathSegments.dropLast }
  | [] =>
    match k.hostLabels with
    | [] => none
    | l :: rest =>
      if l == "*" then
        match rest with
        | _ :: r₂ :: rs => some ⟨"*" :: r₂ :: rs, []⟩
        | _ => none
      else some ⟨"*" :: rest, []⟩

/-- One when the host has not yet been wildcarded, zero afterwards; part of
the termination measure for the wildcard fallback chain. -/
def starFlag (hl : List String) : Nat :=
  if hl.head? = some "*" then 0 else 1

theorem starFlag_star (rest : List String) : starFlag ("*" :: rest) = 0 :=
  if_pos rfl

theorem starFlag_other (l : String) (rest : List String) (h : l ≠ "*") :
    starFlag (l :: rest) = 1 :=
  if_neg (by simpa using h)

/-- Termination measure for the wildcard fallback chain. -/
def uriMeasure (k : Uri) : Nat :=
  2 * k.pathSegments.length + 2 * k.hostLabels.length + starFlag k.hostLabels

theorem nextWildcard_measure_lt (k k' : Uri) (h : nextWildcard k = some k') :
    uriMeasure k' < uriMeasure k := by
  rcases k with ⟨hl, ps⟩
  cases ps with
  | cons a ps =>
    simp only [nextWildcard] at h
    cases h
    simp only [uriMeasure, List.length_dropLast, List.length_cons]
    omega
  | nil =>
    cases hl with
    | nil => simp [nextWildcard] at h
    | cons l rest =>
      simp only [nextWildcard] at h
      by_cases hstar : l = "*"
      · subst hstar
        simp only [beq_self_eq_true, if_true] at h
        match rest, h with
        | r₁ :: r₂ :: rs, h =>
          cases h
          simp only [uriMeasure, List.length_cons, List.length_nil,
            starFlag_star]
          omega
      · rw [if_neg (by simpa using hstar)] at h
        cases h
        simp only [uriMeasure, List.length_cons, List.length_nil,
          starFlag_star, starFlag_other l rest hstar]
        omega

/-- The trie abstracted as the finite map it denotes: an association list from
trie paths (the `/`-separated key parts) to pools. Modelled from the spec
(§3, §4.3): container.Trie "maps key → Pool". -/
abbrev TrieMap := List (List String × Pool)

/-- Modelled from the spec: container.Trie.Find — exact-key lookup (first
matching entry). -/
def lookupKey (m : TrieMap) (k : List String) : Option Pool :=
  match m with
  | [] => none
  | kv :: rest => if kv.1 = k then some kv.2 else lookupKey rest k

/-- Modelled from the spec: container.Trie.Insert — replace the entry at `k`,
or append a new one. -/
def insertKey (m : TrieMap) (k : List String) (p : Pool) : TrieMap :=
  match m with
  | [] => [(k, p)]
  | kv :: rest => if kv.1 = k then (k, p) :: rest else kv :: insertKey rest k p

/-- Modelled from the spec: container.Trie.Delete with upward snip — the key
(and any ancestor nodes left empty) disappears from the denoted map. -/
def deleteKey (m : TrieMap) (k : List String) : TrieMap :=
  m.filter (fun kv => !decide (kv.1 = k))

/-- Modelled from the spec: container.Trie.MatchUri — longest-prefix context
matching (§2, §4.3): the pool at the deepest prefix of the key's parts that
has a pool; tries the longest prefix first, then drops trailing segments. -/
def matchUri (m : TrieMap) (parts : List String) : Option Pool :=
  match lookupKey m parts, parts with
  | some p, _ => some p
  | none, [] => none
  | none, a :: ps => matchUri m ((a :: ps).dropLast)
termination_by parts.length
decreasing_by
  simp only [List.length_dropLast, List.length_cons]
  omega

/-- The registry's pruning connectivity status (src/registry/registry.go,
lines 31–36). -/
inductive PruneStatus
  | CONNECTED
  | DISCONNECTED
deriving DecidableEq, Repr

/-- The RouteRegistry state (src/registry/registry.go, lines 38–59): the trie,
the pruning status, the stale threshold and `timeOfLastUpdate`. Fields that
only configure logging or the background ticker are not modelled. -/
structure RouteRegistry where
  byURI : TrieMap
  pruningStatus : PruneStatus
  dropletStaleThreshold : Nat
  timeOfLastUpdate : Nat
deriving DecidableEq, Repr

/-- Calls the registry makes on its metrics reporter. -/
inductive ReporterEvent
  | captureRegistryMessage (e : Endpoint)
  | captureUnregistryMessage (e : Endpoint)
deriving DecidableEq, Repr

/-- Embeds parseContextPath (src/registry/registry.go, lines 304–317):
`"/"` plus everything after the first `/` (after trimming one leading `/`),
cut at the first `?`. -/
def parseContextPath (uri : String) : String :=
  let trimmed := if uri.startsWith "/" then uri.drop 1 else uri
  let contextPath :=
    match trimmed.splitOn "/" with
    | [] => "/"
    | [_] => "/"
    | _ :: rest => "/" ++ String.intercalate "/" rest
  contextPath.takeWhile (fun c => c != '?')

/-- Embeds RouteRegistry.Register (src/registry/registry.go, lines 75–114):
find or create the pool at the normalized key, Put the endpoint, set
`timeOfLastUpdate` to the time captured at call entry, and report
CaptureRegistryMessage. `now` is the value of `time.Now()` at entry. -/
def register (r : RouteRegistry) (now : Nat) (uri : String) (e : Endpoint) :
    RouteRegistry × List ReporterEvent :=
  let routekey := (routeKey uri).parts
  let pool :=
    match lookupKey r.byURI routekey with
    | some p => p
    | none => newPool (r.dropletStaleThreshold / 4) (parseContextPath uri)
  let pool' := (pool.put now e).1
  ({ r with byURI := insertKey r.byURI routekey pool', timeOfLastUpdate := now },
   [.captureRegistryMessage e])

/-- Embeds RouteRegistry.Unregister (src/registry/registry.go, lines 116–149):
Remove from the pool at the normalized key when present, delete the trie node
when the pool became empty, and always report CaptureUnregistryMessage.
`timeOfLastUpdate` is not touched. -/
def unregister (r : RouteRegistry) (uri : String) (e : Endpoint) :
    RouteRegistry × List ReporterEvent :=
  let k := (routeKey uri).parts
  let byURI' :=
    match lookupKey r.byURI k with
    | none => r.byURI
    | some pool =>
      let pool' := (pool.remove e).1
      if pool'.isEmpty then deleteKey r.byURI k else insertKey r.byURI k pool'
  ({ r with byURI := byURI' }, [.captureUnregistryMessage e])

/-- Embeds the Lookup loop (src/registry/registry.go, lines 158–162):
exact match via MatchUri, then repeatedly apply NextWildcard and retry until
a pool is found or NextWildcard signals NoFallback. -/
def lookupLoop (m : TrieMap) (k : Uri) : Option Pool :=
  match matchUri m k.parts, h : nextWildcard k with
  | some p, _ => some p
  | none, none => none
  | none, some k' => lookupLoop m k'
termination_by uriMeasure k
decreasing_by
  exact nextWildcard_measure_lt k k' h

/-- Embeds RouteRegistry.Lookup (src/registry/registry.go, lines 151–168):
normalize the uri, then run the MatchUri/NextWildcard loop. -/
def lookup (r : RouteRegistry) (uri : String) : Option Pool :=
  lookupLoop r.byURI (routeKey uri)

/-- Embeds RouteRegistry.LookupWithInstance (src/registry/registry.go, lines
170–187): Lookup, then Each over the pool, overwriting `surgicalPool` with a
fresh single-endpoint pool (NewPool(0, "") plus Put) on every endpoint whose
ApplicationId and PrivateInstanceIndex match. `now` is the Put clock value. -/
def lookupWithInstance (r : RouteRegistry) (now : Nat) (uri : String)
    (appID appIndex : String) : Option Pool :=
  match lookup r uri with
  | none => none
  | some p =>
    p.endpoints.foldl (fun acc e =>
      if e.applicationId = appID ∧ e.privateInstanceIndex = appIndex then
        some ((newPool 0 "").put now e).1
      else acc) none

/-- Embeds freshenRoutes (src/registry/registry.go, lines 297–302): MarkUpdated
with `now` on every pool of the trie. -/
def freshenRoutes (m : TrieMap) (now : Nat) : TrieMap :=
  m.map (fun kv => (kv.1, kv.2.markUpdated now))

/-- The per-node body of the prune walk (src/registry/registry.go, lines
273–287): PruneEndpoints on every pool, then Snip — nodes whose pool became
empty disappear from the denoted map. -/
def pruneTrieNodes (m : TrieMap) (now threshold : Nat) : TrieMap :=
  (m.map (fun kv => (kv.1, kv.2.pruneEndpoints now threshold))).filter
    (fun kv => !kv.2.isEmpty)

/-- Embeds RouteRegistry.pruneStaleDroplets (src/registry/registry.go, lines
249–288). `suspended` is the value of the suspend predicate at this tick and
`now` the tick's clock value. -/
def pruneStaleDroplets (r : RouteRegistry) (suspended : Bool) (now : Nat) :
    RouteRegistry :=
  if suspended then { r with pruningStatus := .DISCONNECTED }
  else
    let byURI₁ :=
      if r.pruningStatus = .DISCONNECTED then freshenRoutes r.byURI now else r.byURI
    { r with pruningStatus := .CONNECTED,
             byURI := pruneTrieNodes byURI₁ now r.dropletStaleThreshold }

/-! ## Proxy round-tripper

The round-tripper source is not under src/ (only its test file,
src/unnamed/part_000, is); the definitions below are modelled from the spec
(§4.4, §6, §7), with behavior pinned down by those tests. -/

/-- Modelled from the spec: the pool's stateful round-robin iterator (§4.2). -/
structure EndpointIterator where
  endpoints : List Endpoint
  cursor : Nat
  failedAddrs : List String
deriving Repr

/-- Modelled from the spec: Pool.Iterator() (§4.2) — a cursor over a snapshot
of the current membership. -/
def Pool.iterator (p : Pool) : EndpointIterator :=
  ⟨p.endpoints, 0, []⟩

/-- Modelled from the spec: iterator Next (§4.2) — round-robin over the
snapshot, skipping endpoints marked failed; failure marks bias retries toward
distinct endpoints, so when every endpoint is marked failed the marks are
cleared rather than exhausting the pool (fixed by spec §8 scenario 3: with a
single repeatedly-failing endpoint the transport is still called
`retry_limit` times). Returns `none` exactly when the membership is empty. -/
def EndpointIterator.next (it : EndpointIterator) : Option (Endpoint × EndpointIterator) :=
  match it.endpoints with
  | [] => none
  | e₀ :: _ =>
    let n := it.endpoints.length
    let rot := it.endpoints.drop (it.cursor % n) ++ it.endpoints.take (it.cursor % n)
    match rot.filter (fun e => !(it.failedAddrs.contains e.address)) with
    | [] => some (rot.headD e₀, { it with cursor := it.cursor + 1, failedAddrs := [] })
    | e :: _ => some (e, { it with cursor := it.cursor + 1 })

/-- Modelled from the spec: iterator EndpointFailed (§4.2) — marks the
endpoint as failed for the remainder of this iteration. -/
def EndpointIterator.endpointFailed (it : EndpointIterator) (e : Endpoint) :
    EndpointIterator :=
  { it with failedAddrs := e.address :: it.failedAddrs }

/-- Modelled from the spec: errors the underlying transport can return —
dial failure, connection reset, or any other (non-retryable) error (§4.4). -/
inductive TransportError
  | dial
  | connReset
  | other (msg : String)
deriving DecidableEq, Repr

/-- Modelled from the spec (§4.4): retryable errors are the dial failure and
the connection reset; everything else is non-retryable. -/
def TransportError.retryable : TransportError → Bool
  | .dial => true
  | .connReset => true
  | .other _ => false

/-- An upstream HTTP response, abstracted to its status code. -/
structure Response where
  statusCode : Nat
deriving DecidableEq, Repr

/-- Modelled from the spec: errors surfaced by RoundTrip (§7) — a missing
required context key, NoEndpointsAvailable, or the last transport error. -/
inductive RTError
  | contextMissing (key : String)
  | noEndpointsAvailable
  | upstream (e : TransportError)
deriving DecidableEq, Repr

/-- Error messages, as asserted by the tests in src/unnamed/part_000:
a missing context key yields "KeyName not set on context". -/
def RTError.message : RTError → String
  | .contextMissing key => key ++ " not set on context"
  | .noEndpointsAvailable => "No endpoints available"
  | .upstream _ => "upstream failure"

/-- The request context as RoundTrip sees it (§4.4, §6): the RoutePool and
the presence of the ProxyResponseWriter and AccessLogRecord keys, plus the
optional RouteServiceURL. -/
structure ReqContext where
  routePool : Option Pool
  hasProxyResponseWriter : Bool
  hasAccessLogRecord : Bool
  routeServiceURL : Option String
deriving Repr

/-- The canonical 502 body (§6): literal-equal across all 502 paths. -/
def BadGatewayMessage : String :=
  "502 Bad Gateway: Registered endpoint failed to handle the request."

/-- The observable effects of one RoundTrip call: transport invocation count,
metrics captures, log event counts, what was written to the response writer,
the AccessLogRecord stamps, and the returned value. -/
structure RTOutcome where
  transportCalls : Nat
  routingRequests : List Endpoint
  badGatewayCount : Nat
  backendFailedLogCount : Nat
  routeServiceFailedLogCount : Nat
  respStatus : Option Nat
  respRouterErrorHeader : Option String
  respBody : String
  alrStatusCode : Option Nat
  alrRouteEndpoint : Option Endpoint
  result : Except RTError Response
deriving Repr

/-- The outcome before any effect has happened. -/
def initOutcome : RTOutcome :=
  ⟨0, [], 0, 0, 0, none, none, "", none, none, .error .noEndpointsAvailable⟩

/-- Modelled from the spec (§4.4): every failure path writes a 502 with body
`BadGatewayMessage` and header `X-Cf-RouterError: endpoint_failure`, stamps
AccessLogRecord.StatusCode = 502, and captures CaptureBadGateway. -/
def write502 (o : RTOutcome) : RTOutcome :=
  { o with respStatus := some 502,
           respRouterErrorHeader := some "endpoint_failure",
           respBody := BadGatewayMessage,
           alrStatusCode := some 502,
           badGatewayCount := o.badGatewayCount + 1 }

/-- Modelled from the spec: the normal-mode retry loop (§4.4 mode 1): up to
the given number of attempts, take the next endpoint (none → 502 and
NoEndpointsAvailable), stamp the access log and capture the routing request,
call the transport; on success return the response, on a retryable error log
`backend-endpoint-failed`, mark the endpoint failed and retry, on a
non-retryable error write the 502 and return the error; when the attempts are
exhausted write the 502 and return the last error. -/
def backendLoop (transport : Nat → Except TransportError Response)
    (it : EndpointIterator) (o : RTOutcome) (lastErr : Option TransportError) :
    Nat → RTOutcome
  | 0 =>
    { write502 o with result := .error (match lastErr with
        | some err => .upstream err
        | none => .noEndpointsAvailable) }
  | remaining + 1 =>
    match it.next with
    | none => { write502 o with result := .error .noEndpointsAvailable }
    | some (ep, it') =>
      let idx := o.transportCalls
      let o' := { o with alrRouteEndpoint := some ep,
                         routingRequests := o.routingRequests ++ [ep],
                         transportCalls := idx + 1 }
      match transport idx with
      | .ok resp => { o' with result := .ok resp }
      | .error err =>
        if err.retryable then
          backendLoop transport (it'.endpointFailed ep)
            { o' with backendFailedLogCount := o'.backendFailedLogCount + 1 }
            (some err) remaining
        else
          { write502 o' with result := .error (.upstream err) }

/-- Modelled from the spec: the route-service retry loop (§4.4 mode 2): the
pool is not iterated and no routing request is captured; retryable errors log
`route-service-connection-failed` and retry; non-retryable errors and
exhaustion yield the same 502 behavior. -/
def routeServiceLoop (transport : Nat → Except TransportError Response)
    (o : RTOutcome) (lastErr : Option TransportError) : Nat → RTOutcome
  | 0 =>
    { write502 o with result := .error (match lastErr with
        | some err => .upstream err
        | none => .noEndpointsAvailable) }
  | remaining + 1 =>
    let idx := o.transportCalls
    let o' := { o with transportCalls := idx + 1 }
    match transport idx with
    | .ok resp => { o' with result := .ok resp }
    | .error err =>
      if err.retryable then
        routeServiceLoop transport
          { o' with routeServiceFailedLogCount := o'.routeServiceFailedLogCount + 1 }
          (some err) remaining
      else
        { write502 o' with result := .error (.upstream err) }

/-- Modelled from the spec: `retry_limit = 3` (§4.4, §6). -/
def retryLimit : Nat := 3

/-- Modelled from the spec: ProxyRoundTripper.RoundTrip (§4.4): the required
context keys RoutePool, ProxyResponseWriter, AccessLogRecord are checked in
that order (a missing one returns the matching ContextMissing error), then
route-service mode or normal mode runs for up to `retry_limit` attempts.
`transport n` is what the underlying transport returns on its n-th call. -/
def roundTrip (ctx : ReqContext) (transport : Nat → Except TransportError Response) :
    RTOutcome :=
  match ctx.routePool with
  | none => { initOutcome with result := .error (.contextMissing "RoutePool") }
  | some pool =>
    if !ctx.hasProxyResponseWriter then
      { initOutcome with result := .error (.contextMissing "ProxyResponseWriter") }
    else if !ctx.hasAccessLogRecord then
      { initOutcome with result := .error (.contextMissing "AccessLogRecord") }
    else
      match ctx.routeServiceURL with
      | some _ => routeServiceLoop transport initOutcome none retryLimit
      | none => backendLoop transport pool.iterator initOutcome none retryLimit

/-! ## Helper lemmas about the trie map and pools -/

theorem lookupKey_insertKey_self (m : TrieMap) (k : List String) (p : Pool) :
    lookupKey (insertKey m k p) k = some p := by
  induction m with
  | nil => simp [insertKey, lookupKey]
  | cons kv rest ih =>
    by_cases hk : kv.1 = k
    · simp [insertKey, lookupKey, hk]
    · simp [insertKey, lookupKey, hk, ih]

theorem insertKey_of_lookupKey (m : TrieMap) (k : List String) (p : Pool)
    (h : lookupKey m k = some p) : insertKey m k p = m := by
  induction m with
  | nil => simp [lookupKey] at h
  | cons kv rest ih =>
    by_cases hk : kv.1 = k
    · simp only [lookupKey, hk, if_pos rfl] at h
      cases h
      simp [insertKey, hk]
      exact Prod.ext hk.symm rfl
    · simp only [lookupKey, hk, if_neg hk] at h
      simp [insertKey, hk, ih h]

theorem matchUri_of_lookupKey (m : TrieMap) (parts : List String) (p : Pool)
    (h : lookupKey m parts = some p) : matchUri m parts = some p := by
  rw [matchUri.eq_def]
  simp [h]

theorem lookupLoop_insertKey (m : TrieMap) (k : Uri) (p : Pool) :
    lookupLoop (insertKey m k.parts p) k = some p := by
  rw [lookupLoop.eq_def]
  simp [matchUri_of_lookupKey _ _ _ (lookupKey_insertKey_self m k.parts p)]

theorem Pool.put_mem_address (p : Pool) (now : Nat) (e : Endpoint) :
    ∃ x ∈ ((p.put now e).1).endpoints, x.address = e.address := by
  unfold Pool.put
  by_cases h : (p.endpoints.any fun x => x.address == e.address) = true
  · rw [if_pos h]
    obtain ⟨x, hx, hxe⟩ := List.any_eq_true.mp h
    refine ⟨_, List.mem_map_of_mem _ hx, ?_⟩
    by_cases h₂ : (x.address == e.address &&
        ModificationTag.newer e.modificationTag x.modificationTag) = true
    · simp [h₂]
    · simp only [Bool.not_eq_true] at h₂
      simp only [h₂, Bool.false_eq_true, if_false]
      exact beq_iff_eq.mp hxe
  · rw [if_neg h]
    exact ⟨{ e with updatedAt := now }, by simp, rfl⟩

theorem Pool.remove_not_mem (p : Pool) (e : Endpoint)
    (h : ∀ x ∈ p.endpoints, x.address ≠ e.address) : (p.remove e).1 = p := by
  unfold Pool.remove
  rw [if_neg]
  simp only [List.any_eq_true, not_exists, not_and, Bool.not_eq_true]
  intro x hx
  simpa using h x hx

/-! ## Claim theorems -/

/-- C10: Register sets the registry's `timeOfLastUpdate` to the wall-clock
time captured at call entry, on every call, whether or not Pool.Put changed
the routing state. -/
theorem register_sets_timeOfLastUpdate (r : RouteRegistry) (now : Nat)
    (uri : String) (e : Endpoint) :
    ((register r now uri e).1).timeOfLastUpdate = now := rfl

/-- C9: Unregister always reports CaptureUnregistryMessage exactly once with
the given endpoint; and when the normalized URI is absent from the trie, or
the pool at it (nonempty, as every reachable pool is) has no endpoint with
the given canonical address, the registry state — trie, pools and
`timeOfLastUpdate` — is unchanged. -/
theorem unregister_frame (r : RouteRegistry) (uri : String) (e : Endpoint)
    (h : ∀ p, lookupKey r.byURI (routeKey uri).parts = some p →
      p.endpoints ≠ [] ∧ ∀ x ∈ p.endpoints, x.address ≠ e.address) :
    (unregister r uri e).1 = r ∧
    ∀ (r' : RouteRegistry) (uri' : String) (e' : Endpoint),
      (unregister r' uri' e').2 = [ReporterEvent.captureUnregistryMessage e'] := by
  refine ⟨?_, fun r' uri' e' => rfl⟩
  unfold unregister
  cases hk : lookupKey r.byURI (routeKey uri).parts with
  | none => simp only [hk]
  | some pool =>
    obtain ⟨hne, hnomem⟩ := h pool hk
    simp only [hk]
    rw [Pool.remove_not_mem pool e hnomem]
    rw [if_neg (by simpa [Pool.isEmpty, List.isEmpty_iff] using hne)]
    rw [insertKey_of_lookupKey _ _ _ hk]

/-- Closed witness for C9 at a concrete registry where the key is absent. -/
theorem unregister_frame_witness :
    (unregister ⟨[], .CONNECTED, 0, 0⟩ "x.com" ⟨"a", "0", "addr", ⟨"", 0⟩, 0⟩).1 =
      ⟨[], .CONNECTED, 0, 0⟩ :=
  (unregister_frame ⟨[], .CONNECTED, 0, 0⟩ "x.com" ⟨"a", "0", "addr", ⟨"", 0⟩, 0⟩
    (fun p hp => by simp [lookupKey] at hp)).1

/-- C5: after Register(u, e) with no intervening Unregister or prune tick,
Lookup(u) returns a pool that contains e (endpoint identity being the
canonical address, the pool's equality key). -/
theorem register_lookup_contains (r : RouteRegistry) (now : Nat) (uri : String)
    (e : Endpoint) :
    ∃ p, lookup (register r now uri e).1 uri = some p ∧
      ∃ x ∈ p.endpoints, x.address = e.address := by
  unfold register lookup
  simp only
  exact ⟨_, lookupLoop_insertKey _ _ _, Pool.put_mem_address _ now e⟩

/-- The matching order the spec prescribes: the normalized key itself, then
the successive `NextWildcard` results until exhaustion (§4.1). -/
def wildcardChain (k : Uri) : List Uri :=
  k :: (match h : nextWildcard k with
        | none => []
        | some k' => wildcardChain k')
termination_by uriMeasure k
decreasing_by
  exact nextWildcard_measure_lt k k' h

theorem uriMeasure_pos (k : Uri) : 0 < uriMeasure k := by
  rcases k with ⟨hl, ps⟩
  cases hl with
  | nil =>
    have h₁ : starFlag ([] : List String) = 1 := rfl
    simp only [uriMeasure]
    omega
  | cons l rest =>
    simp only [uriMeasure, List.length_cons]
    omega

theorem lookupLoop_eq_findSome (m : TrieMap) (k : Uri) :
    lookupLoop m k =
      (wildcardChain k).findSome? (fun u => matchUri m u.parts) := by
  have H : ∀ n, ∀ k : Uri, uriMeasure k ≤ n →
      lookupLoop m k = (wildcardChain k).findSome? (fun u => matchUri m u.parts) := by
    intro n
    induction n with
    | zero =>
      intro k hk
      exact absurd hk (by have := uriMeasure_pos k; omega)
    | succ n ih =>
      intro k hk
      rw [lookupLoop.eq_def, wildcardChain.eq_def]
      cases hm : matchUri m k.parts with
      | some p => simp [List.findSome?, hm]
      | none =>
        cases hw : nextWildcard k with
        | none => simp [List.findSome?, hm, hw]
        | some k' =>
          have hlt := nextWildcard_measure_lt k k' hw
          simp only [hm, hw, List.findSome?]
          rw [ih k' (by omega)]
  exact H (uriMeasure k) k le_rfl

/-- C4: Lookup first attempts a match of the normalized route key via
MatchUri and, while no pool is found, repeatedly applies NextWildcard and
retries MatchUri, returning the first pool found; when NextWildcard signals
exhaustion (NoFallback) without a match, Lookup returns null. Formally:
Lookup equals the first MatchUri hit along the chain consisting of the
normalized key followed by its successive NextWildcard results (`findSome?`
returns `none` exactly when no element of the chain matches). -/
theorem lookup_first_wildcard_match (r : RouteRegistry) (uri : String) :
    lookup r uri =
      (wildcardChain (routeKey uri)).findSome? (fun u => matchUri r.byURI u.parts) :=
  lookupLoop_eq_findSome r.byURI (routeKey uri)

/-- The Each-with-overwrite accumulation of LookupWithInstance equals the
last matching endpoint of the pool, made into a fresh single-endpoint pool. -/
theorem surgical_foldl (appID appIndex : String) (now : Nat) (l : List Endpoint)
    (init : Option Pool) :
    l.foldl (fun acc e =>
      if e.applicationId = appID ∧ e.privateInstanceIndex = appIndex then
        some ((newPool 0 "").put now e).1
      else acc) init =
    match (l.filter (fun e =>
        decide (e.applicationId = appID ∧ e.privateInstanceIndex = appIndex))).getLast? with
    | some e => some ((newPool 0 "").put now e).1
    | none => init := by
  induction l generalizing init with
  | nil => simp
  | cons x xs ih =>
    simp only [List.foldl_cons]
    rw [ih]
    by_cases hx : x.applicationId = appID ∧ x.privateInstanceIndex = appIndex
    · rw [List.filter_cons_of_pos (by simpa using hx)]
      cases hfs : xs.filter (fun e =>
          decide (e.applicationId = appID ∧ e.privateInstanceIndex = appIndex)) with
      | nil => simp [hfs, hx]
      | cons y ys =>
        rw [List.getLast?_cons_cons]
        cases hl : (y :: ys).getLast? with
        | some z => rfl
        | none => exact absurd (List.getLast?_eq_none_iff.mp hl) (by simp)
    · rw [List.filter_cons_of_neg (by simpa using hx)]
      simp [hx]

/-- Amended C1: LookupWithInstance returns null when Lookup misses or no
endpoint of the found pool has the given ApplicationId and
PrivateInstanceIndex; otherwise it returns a fresh ephemeral pool
(threshold 0, empty context path) holding only the LAST matching endpoint in
pool order — not null, even when more than one endpoint matches. -/
theorem lookupWithInstance_last_match (r : RouteRegistry) (now : Nat)
    (uri : String) (appID appIndex : String) :
    lookupWithInstance r now uri appID appIndex =
      (lookup r uri).bind (fun p =>
        ((p.endpoints.filter (fun e =>
            decide (e.applicationId = appID ∧ e.privateInstanceIndex = appIndex))).getLast?).map
          (fun e => ⟨0, "", [{ e with updatedAt := now }]⟩)) := by
  cases h : lookup r uri with
  | none => simp [lookupWithInstance, h]
  | some p =>
    simp only [lookupWithInstance, h]
    rw [surgical_foldl, Option.some_bind']
    cases hl : (p.endpoints.filter (fun e =>
        decide (e.applicationId = appID ∧ e.privateInstanceIndex = appIndex))).getLast? with
    | none => rfl
    | some z => rfl

/-- The two-matching-endpoints pool used by the C1 counterexample. -/
def poolC1 : Pool :=
  ⟨0, "/", [⟨"app", "3", "1.1.1.1:1", ⟨"g", 1⟩, 0⟩, ⟨"app", "3", "2.2.2.2:2", ⟨"g", 1⟩, 0⟩]⟩

/-- The registry used by the C1 counterexample. -/
def rC1 : RouteRegistry :=
  ⟨[(["two.example.com"], poolC1)], .CONNECTED, 0, 0⟩

/-- C1 counterexample: both endpoints of the pool found by Lookup match the
requested ApplicationId/PrivateInstanceIndex, yet LookupWithInstance does not
return null — it returns a single-endpoint pool holding the last match. -/
theorem lookupWithInstance_two_matches_counterexample :
    (poolC1.endpoints.filter (fun e =>
        decide (e.applicationId = "app" ∧ e.privateInstanceIndex = "3"))).length = 2 ∧
    lookup rC1 "two.example.com" = some poolC1 ∧
    lookupWithInstance rC1 7 "two.example.com" "app" "3" =
      some ⟨0, "", [⟨"app", "3", "2.2.2.2:2", ⟨"g", 1⟩, 7⟩]⟩ := by
  have hparts : (routeKey "two.example.com").parts = ["two.example.com"] := by decide
  have hfound : lookup rC1 "two.example.com" = some poolC1 := by
    rw [lookup, lookupLoop.eq_def, hparts]
    rw [matchUri_of_lookupKey _ _ poolC1 (by decide)]
  refine ⟨by decide, hfound, ?_⟩
  unfold lookupWithInstance
  rw [hfound]
  decide

theorem mem_pruneTrieNodes (m : TrieMap) (now threshold : Nat)
    (k : List String) (e : Endpoint) :
    (∃ p, (k, p) ∈ pruneTrieNodes m now threshold ∧ e ∈ p.endpoints) ↔
    (∃ p, (k, p) ∈ m ∧ e ∈ p.endpoints ∧ ¬(e.updatedAt + threshold < now)) := by
  constructor
  · rintro ⟨p', hp', he⟩
    rw [pruneTrieNodes] at hp'
    obtain ⟨hmem, _⟩ := List.mem_filter.mp hp'
    obtain ⟨⟨k₀, p₀⟩, hk₀, heq⟩ := List.mem_map.mp hmem
    cases heq
    obtain ⟨he₀, hfresh⟩ := List.mem_filter.mp he
    exact ⟨p₀, hk₀, he₀, by simpa using hfresh⟩
  · rintro ⟨p, hpm, he, hfresh⟩
    have he' : e ∈ (p.pruneEndpoints now threshold).endpoints :=
      List.mem_filter.mpr ⟨he, by simpa using hfresh⟩
    refine ⟨p.pruneEndpoints now threshold, ?_, he'⟩
    rw [pruneTrieNodes]
    refine List.mem_filter.mpr ⟨List.mem_map.mpr ⟨(k, p), hpm, rfl⟩, ?_⟩
    simp only [Pool.isEmpty, Bool.not_eq_true', List.isEmpty_eq_false]
    exact List.ne_nil_of_mem he'

theorem mem_freshenRoutes (m : TrieMap) (now : Nat) (k : List String) (e : Endpoint) :
    (∃ p, (k, p) ∈ freshenRoutes m now ∧ e ∈ p.endpoints) ↔
    (∃ p, (k, p) ∈ m ∧ ∃ e₀ ∈ p.endpoints, e = { e₀ with updatedAt := now }) := by
  constructor
  · rintro ⟨p', hp', he⟩
    rw [freshenRoutes] at hp'
    obtain ⟨⟨k₀, p₀⟩, hk₀, heq⟩ := List.mem_map.mp hp'
    cases heq
    obtain ⟨e₀, he₀, rfl⟩ := List.mem_map.mp he
    exact ⟨p₀, hk₀, e₀, he₀, rfl⟩
  · rintro ⟨p, hpm, e₀, he₀, rfl⟩
    exact ⟨p.markUpdated now,
      List.mem_map.mpr ⟨(k, p), hpm, rfl⟩,
      List.mem_map.mpr ⟨e₀, he₀, rfl⟩⟩

/-- Amended C3: on a prune tick, (i) the status becomes DISCONNECTED exactly
when the suspend predicate returned true and CONNECTED otherwise; (ii) on a
suspended tick the state is otherwise unchanged; (iii) an endpoint survives
the tick at key k iff — suspended: it was there before; unsuspended from
DISCONNECTED: it is the freshened (updated_at = now) copy of an endpoint
that was there before, whatever its prior age; unsuspended from CONNECTED:
it was there before and its updated_at is NOT STRICTLY more than
stale_threshold old (endpoints aged exactly stale_threshold are retained). -/
theorem pruneTick_amended (r : RouteRegistry) (s : Bool) (now : Nat) :
    (pruneStaleDroplets r s now).pruningStatus =
      (if s then PruneStatus.DISCONNECTED else PruneStatus.CONNECTED) ∧
    (if s then pruneStaleDroplets r s now = { r with pruningStatus := .DISCONNECTED }
     else True) ∧
    ∀ (k : List String) (e : Endpoint),
      (∃ p, (k, p) ∈ (pruneStaleDroplets r s now).byURI ∧ e ∈ p.endpoints) ↔
      (if s then ∃ p, (k, p) ∈ r.byURI ∧ e ∈ p.endpoints
       else if r.pruningStatus = PruneStatus.DISCONNECTED then
         ∃ p, (k, p) ∈ r.byURI ∧ ∃ e₀ ∈ p.endpoints, e = { e₀ with updatedAt := now }
       else
         ∃ p, (k, p) ∈ r.byURI ∧ e ∈ p.endpoints ∧
           ¬(e.updatedAt + r.dropletStaleThreshold < now)) := by
  cases s with
  | true =>
    refine ⟨rfl, rfl, fun k e => ?_⟩
    simp only [if_true]
    exact Iff.rfl
  | false =>
    by_cases hst : r.pruningStatus = PruneStatus.DISCONNECTED
    · refine ⟨by simp [pruneStaleDroplets], trivial, fun k e => ?_⟩
      simp only [pruneStaleDroplets, Bool.false_eq_true, if_false, hst, if_pos, if_true]
      rw [mem_pruneTrieNodes]
      constructor
      · rintro ⟨p, hp, he, _⟩
        exact (mem_freshenRoutes r.byURI now k e).mp ⟨p, hp, he⟩
      · intro h
        obtain ⟨p, hp, he⟩ := (mem_freshenRoutes r.byURI now k e).mpr h
        refine ⟨p, hp, he, ?_⟩
        obtain ⟨p₀, _, e₀, _, rfl⟩ := h
        simp only
        omega
    · refine ⟨by simp [pruneStaleDroplets], trivial, fun k e => ?_⟩
      simp only [pruneStaleDroplets, Bool.false_eq_true, if_false, hst]
      exact mem_pruneTrieNodes r.byURI now r.dropletStaleThreshold k e

/-- The endpoint of the C3 counterexample: `updated_at = 0`. -/
def eC3 : Endpoint := ⟨"app", "0", "1.1.1.1:1", ⟨"g", 1⟩, 0⟩

/-- The registry of the C3 counterexample: one pool, stale threshold 5,
status CONNECTED. -/
def rC3 : RouteRegistry := ⟨[(["h.example"], ⟨0, "/", [eC3]⟩)], .CONNECTED, 5, 0⟩

/-- C3 counterexample: at the tick at time 5 the endpoint is exactly
stale_threshold old (age 5 ≥ threshold 5), the tick runs unsuspended in
CONNECTED status, and yet the endpoint is NOT removed: pruning removes only
endpoints STRICTLY older than the threshold. -/
theorem pruneTick_boundary_counterexample :
    eC3.updatedAt + rC3.dropletStaleThreshold ≤ 5 ∧
    rC3.pruningStatus = PruneStatus.CONNECTED ∧
    (pruneStaleDroplets rC3 false 5).byURI = [(["h.example"], ⟨0, "/", [eC3]⟩)] :=
  ⟨by decide, rfl, by decide⟩

/-! ## Round-tripper lemmas and claims -/

theorem next_fresh (e : Endpoint) (es : List Endpoint) :
    EndpointIterator.next ⟨e :: es, 0, []⟩ = some (e, ⟨e :: es, 1, []⟩) := by
  simp [EndpointIterator.next]

theorem next_singleton_failed (e : Endpoint) (c : Nat) :
    EndpointIterator.next ⟨[e], c, [e.address]⟩ = some (e, ⟨[e], c + 1, []⟩) := by
  simp [EndpointIterator.next, Nat.mod_one]

/-- C7: with an empty RoutePool, RoundTrip returns NoEndpointsAvailable (no
response), writes the canonical 502 with header endpoint_failure and the
BadGatewayMessage body, stamps AccessLogRecord.StatusCode = 502 with
RouteEndpoint null, never captures a routing request, and captures
CaptureBadGateway exactly once. -/
theorem roundTrip_empty_pool (ctx : ReqContext)
    (transport : Nat → Except TransportError Response) (pool : Pool)
    (hpool : ctx.routePool = some pool) (hempty : pool.endpoints = [])
    (hprw : ctx.hasProxyResponseWriter = true) (halr : ctx.hasAccessLogRecord = true)
    (hrs : ctx.routeServiceURL = none) :
    (roundTrip ctx transport).result = .error .noEndpointsAvailable ∧
    (roundTrip ctx transport).respStatus = some 502 ∧
    (roundTrip ctx transport).respRouterErrorHeader = some "endpoint_failure" ∧
    List.IsInfix BadGatewayMessage.toList (roundTrip ctx transport).respBody.toList ∧
    (roundTrip ctx transport).alrStatusCode = some 502 ∧
    (roundTrip ctx transport).alrRouteEndpoint = none ∧
    (roundTrip ctx transport).routingRequests = [] ∧
    (roundTrip ctx transport).badGatewayCount = 1 := by
  have key : roundTrip ctx transport =
      { write502 initOutcome with result := .error .noEndpointsAvailable } := by
    simp [roundTrip, hpool, hprw, halr, hrs, retryLimit, Pool.iterator, hempty,
      backendLoop, EndpointIterator.next]
  rw [key]
  exact ⟨rfl, rfl, rfl, ⟨[], [], by simp [write502]⟩, rfl, rfl, rfl, rfl⟩

/-- Closed witness for C7 at a concrete empty-pool request. -/
theorem roundTrip_empty_pool_witness :
    (roundTrip ⟨some ⟨1, "", []⟩, true, true, none⟩ (fun _ => .ok ⟨418⟩)).result =
        .error .noEndpointsAvailable ∧
    (roundTrip ⟨some ⟨1, "", []⟩, true, true, none⟩ (fun _ => .ok ⟨418⟩)).badGatewayCount = 1 :=
  ⟨(roundTrip_empty_pool _ _ ⟨1, "", []⟩ rfl rfl rfl rfl rfl).1,
   (roundTrip_empty_pool _ _ ⟨1, "", []⟩ rfl rfl rfl rfl rfl).2.2.2.2.2.2.2⟩

/-- The key RoundTrip reports missing, following the claim's order: RoutePool,
then ProxyResponseWriter, then AccessLogRecord. -/
def missingKeyOf (ctx : ReqContext) : String :=
  if ctx.routePool = none then "RoutePool"
  else if ctx.hasProxyResponseWriter = false then "ProxyResponseWriter"
  else "AccessLogRecord"

/-- C8: when the request context lacks one of the required keys RoutePool,
ProxyResponseWriter or AccessLogRecord (checked in that order), RoundTrip
returns an error whose message contains the missing key's name. -/
theorem roundTrip_missing_context (ctx : ReqContext)
    (transport : Nat → Except TransportError Response)
    (h : ctx.routePool = none ∨ ctx.hasProxyResponseWriter = false ∨
      ctx.hasAccessLogRecord = false) :
    ∃ err, (roundTrip ctx transport).result = .error err ∧
      err = .contextMissing (missingKeyOf ctx) ∧
      List.IsInfix (missingKeyOf ctx).toList err.message.toList := by
  have hmsg : ∀ key : String,
      List.IsInfix key.toList (RTError.contextMissing key).message.toList := by
    intro key
    refine ⟨[], " not set on context".toList, ?_⟩
    simp [RTError.message, String.toList]
  cases hp : ctx.routePool with
  | none =>
    refine ⟨.contextMissing "RoutePool", ?_, ?_, ?_⟩
    · simp [roundTrip, hp]
    · simp [missingKeyOf, hp]
    · simpa [missingKeyOf, hp] using hmsg "RoutePool"
  | some pool =>
    cases hw : ctx.hasProxyResponseWriter with
    | false =>
      refine ⟨.contextMissing "ProxyResponseWriter", ?_, ?_, ?_⟩
      · simp [roundTrip, hp, hw]
      · simp [missingKeyOf, hp, hw]
      · simpa [missingKeyOf, hp, hw] using hmsg "ProxyResponseWriter"
    | true =>
      cases ha : ctx.hasAccessLogRecord with
      | false =>
        refine ⟨.contextMissing "AccessLogRecord", ?_, ?_, ?_⟩
        · simp [roundTrip, hp, hw, ha]
        · simp [missingKeyOf, hp, hw]
        · simpa [missingKeyOf, hp, hw] using hmsg "AccessLogRecord"
      | true =>
        rcases h with h | h | h
        · rw [hp] at h; cases h
        · rw [hw] at h; cases h
        · rw [ha] at h; cases h

/-- Closed witness for C8 at a request context missing RoutePool. -/
theorem roundTrip_missing_context_witness :
    ∃ err, (roundTrip ⟨none, true, true, none⟩ (fun _ => .ok ⟨418⟩)).result = .error err ∧
      err = .contextMissing (missingKeyOf ⟨none, true, true, none⟩) ∧
      List.IsInfix (missingKeyOf ⟨none, true, true, none⟩).toList err.message.toList :=
  roundTrip_missing_context ⟨none, true, true, none⟩ (fun _ => .ok ⟨418⟩) (Or.inl rfl)

/-- C6: when the underlying transport fails with a non-retryable error (one
that is neither a dial failure nor a connection reset), RoundTrip calls the
transport exactly once, writes the canonical 502 with header endpoint_failure
and the BadGatewayMessage body, returns that error, and never logs
`backend-endpoint-failed`. Stated for serviceable requests: the three
required context keys are present, and in normal mode the pool is
nonempty (route-service mode needs no pool). -/
theorem roundTrip_non_retryable (ctx : ReqContext)
    (transport : Nat → Except TransportError Response) (pool : Pool)
    (err : TransportError)
    (hpool : ctx.routePool = some pool)
    (hprw : ctx.hasProxyResponseWriter = true) (halr : ctx.hasAccessLogRecord = true)
    (hne : ctx.routeServiceURL = none → pool.endpoints ≠ [])
    (htr : ∀ n, transport n = .error err) (hret : err.retryable = false) :
    (roundTrip ctx transport).transportCalls = 1 ∧
    (roundTrip ctx transport).respStatus = some 502 ∧
    (roundTrip ctx transport).respRouterErrorHeader = some "endpoint_failure" ∧
    List.IsInfix BadGatewayMessage.toList (roundTrip ctx transport).respBody.toList ∧
    (roundTrip ctx transport).result = .error (.upstream err) ∧
    (roundTrip ctx transport).backendFailedLogCount = 0 := by
  cases hrs : ctx.routeServiceURL with
  | some u =>
    have key : roundTrip ctx transport =
        { write502 { initOutcome with transportCalls := 1 } with
            result := .error (.upstream err) } := by
      simp [roundTrip, hpool, hprw, halr, hrs, retryLimit, routeServiceLoop,
        htr 0, hret, initOutcome]
    rw [key]
    exact ⟨rfl, rfl, rfl, ⟨[], [], by simp [write502]⟩, rfl, rfl⟩
  | none =>
    obtain ⟨e, es, hsplit⟩ : ∃ e es, pool.endpoints = e :: es := by
      cases hx : pool.endpoints with
      | nil => exact absurd hx (hne hrs)
      | cons e es => exact ⟨e, es, rfl⟩
    have key : roundTrip ctx transport =
        { write502 { initOutcome with
            transportCalls := 1, routingRequests := [e],
            alrRouteEndpoint := some e } with
            result := .error (.upstream err) } := by
      simp [roundTrip, hpool, hprw, halr, hrs, retryLimit, Pool.iterator, hsplit,
        backendLoop, next_fresh, htr 0, hret, initOutcome]
    rw [key]
    exact ⟨rfl, rfl, rfl, ⟨[], [], by simp [write502]⟩, rfl, rfl⟩

/-- Closed witness for C6 at a concrete single-endpoint request with a
non-retryable transport error. -/
theorem roundTrip_non_retryable_witness :
    (roundTrip ⟨some ⟨1, "", [⟨"appId", "1", "1.1.1.1:9090", ⟨"", 0⟩, 0⟩]⟩, true, true, none⟩
        (fun _ => .error (.other "error"))).transportCalls = 1 ∧
    (roundTrip ⟨some ⟨1, "", [⟨"appId", "1", "1.1.1.1:9090", ⟨"", 0⟩, 0⟩]⟩, true, true, none⟩
        (fun _ => .error (.other "error"))).backendFailedLogCount = 0 :=
  ⟨(roundTrip_non_retryable _ _ _ (.other "error") rfl rfl rfl
      (fun _ => by simp) (fun _ => rfl) rfl).1,
   (roundTrip_non_retryable _ _ _ (.other "error") rfl rfl rfl
      (fun _ => by simp) (fun _ => rfl) rfl).2.2.2.2.2⟩

/-- C2: with a single-endpoint pool and a transport failing with a dial error
on every call, RoundTrip calls the transport exactly 3 times (retry_limit),
writes the canonical 502 with header endpoint_failure and the
BadGatewayMessage body, stamps AccessLogRecord.StatusCode = 502 and
RouteEndpoint to the endpoint, captures CaptureRoutingRequest 3 times with
that endpoint and CaptureBadGateway once, and returns the last dial error. -/
theorem roundTrip_dial_retries (ctx : ReqContext)
    (transport : Nat → Except TransportError Response) (pool : Pool) (e : Endpoint)
    (hpool : ctx.routePool = some pool) (hsingle : pool.endpoints = [e])
    (hprw : ctx.hasProxyResponseWriter = true) (halr : ctx.hasAccessLogRecord = true)
    (hrs : ctx.routeServiceURL = none)
    (htr : ∀ n, transport n = .error .dial) :
    (roundTrip ctx transport).transportCalls = 3 ∧
    (roundTrip ctx transport).respStatus = some 502 ∧
    (roundTrip ctx transport).respRouterErrorHeader = some "endpoint_failure" ∧
    List.IsInfix BadGatewayMessage.toList (roundTrip ctx transport).respBody.toList ∧
    (roundTrip ctx transport).alrStatusCode = some 502 ∧
    (roundTrip ctx transport).alrRouteEndpoint = some e ∧
    (roundTrip ctx transport).routingRequests = [e, e, e] ∧
    (roundTrip ctx transport).badGatewayCount = 1 ∧
    (roundTrip ctx transport).result = .error (.upstream .dial) := by
  have key : roundTrip ctx transport =
      { write502 { initOutcome with
          transportCalls := 3, routingRequests := [e, e, e],
          backendFailedLogCount := 3, alrRouteEndpoint := some e } with
          result := .error (.upstream .dial) } := by
    simp [roundTrip, hpool, hprw, halr, hrs, retryLimit, Pool.iterator, hsingle,
      backendLoop, next_fresh, next_singleton_failed, EndpointIterator.endpointFailed,
      htr, TransportError.retryable, initOutcome]
  rw [key]
  exact ⟨rfl, rfl, rfl, ⟨[], [], by simp [write502]⟩, rfl, rfl, rfl, rfl, rfl⟩

/-- Closed witness for C2 at a concrete single-endpoint request with a
dial error on every call. -/
theorem roundTrip_dial_retries_witness :
    (roundTrip ⟨some ⟨1, "", [⟨"appId", "1", "1.1.1.1:9090", ⟨"", 0⟩, 0⟩]⟩, true, true, none⟩
        (fun _ => .error .dial)).transportCalls = 3 ∧
    (roundTrip ⟨some ⟨1, "", [⟨"appId", "1", "1.1.1.1:9090", ⟨"", 0⟩, 0⟩]⟩, true, true, none⟩
        (fun _ => .error .dial)).result = .error (.upstream .dial) :=
  ⟨(roundTrip_dial_retries _ _ _ ⟨"appId", "1", "1.1.1.1:9090", ⟨"", 0⟩, 0⟩
      rfl rfl rfl rfl rfl (fun _ => rfl)).1,
   (roundTrip_dial_retries _ _ _ ⟨"appId", "1", "1.1.1.1:9090", ⟨"", 0⟩, 0⟩
      rfl rfl rfl rfl rfl (fun _ => rfl)).2.2.2.2.2.2.2.2⟩

end Gorouter
